import Mathlib

/-
Shallow embedding of the @dreamer/service dependency-injection container
(src/src/mod.ts).  The TypeScript class `ServiceContainer` is modelled as a
pure state type `ContainerState`; every method becomes a function from a
state to a result paired with the successor state.  Exceptions do not roll
state back, so methods return `Except Thrown α × ContainerState` with the
state threaded through error paths exactly as the mutations happen in the
source.  JavaScript `Map`s are association lists (`setKey` updates in place,
`delKey` removes, `lookupKey`/`hasKey` query).  The mutable
`ServiceRegistration` objects shared between a primary name and its aliases
are modelled by a heap `regs : List Registration` addressed by index, with
the name table mapping each key to a heap index.  Scope tokens are natural
numbers drawn from a counter; the scope stack stores its top at the head of
the list.  Factories are pure functions receiving the container's global
factory-invocation counter (modelling object allocation / call counting)
and the argument list, and may throw (`Except.error`).
-/

namespace Service

/-- JavaScript values relevant to the container: the absent values
`undefined` and `null`, numbers, strings, and heap objects identified by an
allocation token (object identity is token equality). -/
inductive Value where
  | undef : Value
  | null : Value
  | num : Int → Value
  | str : String → Value
  | obj : Nat → Value
  deriving DecidableEq

/-- A thrown JavaScript value: either an `Error` object (message plus an
optional stack trace) or a non-`Error` throwable. -/
inductive Thrown where
  | errObj : String → Option String → Thrown
  | nonError : Value → Thrown
  deriving DecidableEq

/-- JavaScript `String(v)` on the modelled values. -/
def valueToString : Value → String
  | .undef => "undefined"
  | .null => "null"
  | .num n => toString n
  | .str s => s
  | .obj _ => "[object Object]"

/-- The four lifetimes of `ServiceLifetime` in mod.ts. -/
inductive ServiceLifetime where
  | singleton
  | transient
  | scoped
  | factory
  deriving DecidableEq

/-- A factory: receives the container's global invocation counter (a fresh
token per invocation, modelling allocation) and the argument list, and
either returns a value or throws. -/
def Factory : Type := Nat → List Value → Except Thrown Value

/-- `ServiceRegistration` of mod.ts.  `inst` models the `instance` field:
`none` is the `NOT_CREATED` sentinel symbol, `some v` a cached value (which
may itself be `undef`, `null`, `0` or `""` — all distinguishable from the
sentinel). -/
structure Registration where
  name : String
  lifetime : ServiceLifetime
  factory : Factory
  inst : Option Value
  aliases : Option (List String)

/-- Association-list lookup (JavaScript `Map.get`). -/
def lookupKey {κ α : Type} [DecidableEq κ] : List (κ × α) → κ → Option α
  | [], _ => none
  | p :: rest, k => if p.1 = k then some p.2 else lookupKey rest k

/-- JavaScript `Map.has`. -/
def hasKey {κ α : Type} [DecidableEq κ] (m : List (κ × α)) (k : κ) : Bool :=
  (lookupKey m k).isSome

/-- JavaScript `Map.set`: update in place if the key exists, else append. -/
def setKey {κ α : Type} [DecidableEq κ] : List (κ × α) → κ → α → List (κ × α)
  | [], k, v => [(k, v)]
  | p :: rest, k, v => if p.1 = k then (k, v) :: rest else p :: setKey rest k v

/-- JavaScript `Map.delete` (keys are unique in a `Map`, deleting all
occurrences agrees with deleting the one entry). -/
def delKey {κ α : Type} [DecidableEq κ] : List (κ × α) → κ → List (κ × α)
  | [], _ => []
  | p :: rest, k => if p.1 = k then delKey rest k else p :: delKey rest k

/-- Update the element at an index of a list (heap cell mutation). -/
def modifyAt {α : Type} : List α → Nat → (α → α) → List α
  | [], _, _ => []
  | x :: rest, 0, f => f x :: rest
  | x :: rest, n + 1, f => x :: modifyAt rest n f

/-- The state of a `ServiceContainer`: the name table (`services`, mapping
primary names and aliases to heap indices), the registration heap, the
per-scope instance caches (`scopedInstances`), the scope stack (top at the
head), the next fresh scope token, and the global factory-invocation
counter. -/
structure ContainerState where
  services : List (String × Nat)
  regs : List Registration
  scopedInstances : List (Nat × List (String × Value))
  scopeStack : List Nat
  nextScopeId : Nat
  invokeCount : Nat

/-- A freshly constructed `ServiceContainer`. -/
def ContainerState.empty : ContainerState :=
  { services := [], regs := [], scopedInstances := [], scopeStack := [],
    nextScopeId := 0, invokeCount := 0 }

/-- Error message of `register` when the name is already a key
(DuplicateName). -/
def dupNameMsg (name : String) : String :=
  "服务 \"" ++ name ++ "\" 已注册，如需替换请先使用 remove() 移除"

/-- Error message of `register` when an alias is already a key
(DuplicateAlias). -/
def dupAliasMsg (alias0 : String) : String :=
  "别名 \"" ++ alias0 ++ "\" 已被使用"

/-- Error message of `get` when the name is not a key (NotRegistered). -/
def notRegisteredMsg (name : String) : String :=
  "服务 \"" ++ name ++ "\" 未注册"

/-- Error message of `getScoped` when no scope is active (NoActiveScope). -/
def noActiveScopeMsg (name : String) : String :=
  "作用域服务 \"" ++ name ++ "\" 必须在作用域内使用，请先调用 createScope() 创建作用域"

/-- Wrapped message of `invokeFactory` (FactoryFailure): embeds the
service's primary name and the original message. -/
def wrapMessage (name msg : String) : String :=
  "服务 \"" ++ name ++ "\" 创建失败: " ++ msg

/-- `error instanceof Error ? error.message : String(error)`. -/
def thrownMessage : Thrown → String
  | .errObj m _ => m
  | .nonError v => valueToString v

/-- The stack trace copied onto the wrapper when the original is an `Error`
carrying one (`wrappedError.stack = error.stack`); `none` stands for the
wrapper keeping its own fresh stack. -/
def thrownStack : Thrown → Option String
  | .errObj _ st => st
  | .nonError _ => none

/-- The alias loop of `register` (mod.ts lines 202–210): each alias is
checked and committed one at a time; a duplicate alias aborts the loop with
the table as mutated so far. -/
def registerAliasList (regId : Nat) :
    List (String × Nat) → List String → Except Thrown Unit × List (String × Nat)
  | services, [] => (Except.ok (), services)
  | services, a :: rest =>
    if hasKey services a then
      (Except.error (Thrown.errObj (dupAliasMsg a) none), services)
    else
      registerAliasList regId (setKey services a regId) rest

/-- `ServiceContainer.register` (mod.ts lines 178–211): reject a duplicate
name; otherwise create the registration, commit it under the primary name,
then run the alias loop.  On an alias failure the primary name (and every
alias committed before the duplicate) remains installed, exactly as in the
source where `this.services.set(name, registration)` precedes the loop. -/
def ContainerState.register (s : ContainerState) (name : String)
    (lifetime : ServiceLifetime) (factory : Factory)
    (aliases : Option (List String)) : Except Thrown Unit × ContainerState :=
  if hasKey s.services name then
    (Except.error (Thrown.errObj (dupNameMsg name) none), s)
  else
    let regId := s.regs.length
    let registration : Registration :=
      { name := name, lifetime := lifetime, factory := factory,
        inst := none, aliases := aliases }
    let services1 := setKey s.services name regId
    let step := registerAliasList regId services1 (aliases.getD [])
    (step.1, { s with services := step.2, regs := s.regs ++ [registration] })

/-- `registerSingleton`. -/
def ContainerState.registerSingleton (s : ContainerState) (name : String)
    (factory : Factory) (aliases : Option (List String)) :
    Except Thrown Unit × ContainerState :=
  s.register name ServiceLifetime.singleton factory aliases

/-- `registerTransient`. -/
def ContainerState.registerTransient (s : ContainerState) (name : String)
    (factory : Factory) (aliases : Option (List String)) :
    Except Thrown Unit × ContainerState :=
  s.register name ServiceLifetime.transient factory aliases

/-- `registerScoped`. -/
def ContainerState.registerScoped (s : ContainerState) (name : String)
    (factory : Factory) (aliases : Option (List String)) :
    Except Thrown Unit × ContainerState :=
  s.register name ServiceLifetime.scoped factory aliases

/-- `registerFactory`. -/
def ContainerState.registerFactory (s : ContainerState) (name : String)
    (factory : Factory) (aliases : Option (List String)) :
    Except Thrown Unit × ContainerState :=
  s.register name ServiceLifetime.factory factory aliases

/-- `ServiceContainer.invokeFactory` (mod.ts lines 247–264): call the
factory (handing it the current invocation counter and bumping it); on a
throw, re-raise an `Error` whose message embeds the primary name and the
original message, copying the original's stack when it is an `Error` with
one. -/
def ContainerState.invokeFactory (s : ContainerState)
    (registration : Registration) (args : List Value) :
    Except Thrown Value × ContainerState :=
  let s1 := { s with invokeCount := s.invokeCount + 1 }
  match registration.factory s.invokeCount args with
  | Except.ok v => (Except.ok v, s1)
  | Except.error e =>
    (Except.error (Thrown.errObj
      (wrapMessage registration.name (thrownMessage e)) (thrownStack e)), s1)

/-- `getSingleton` (mod.ts lines 270–280): return the cached instance when
the slot is not the `NOT_CREATED` sentinel, else invoke the factory and
cache the result in the shared registration record (heap cell `regId`). -/
def ContainerState.getSingleton (s : ContainerState) (regId : Nat)
    (registration : Registration) : Except Thrown Value × ContainerState :=
  match registration.inst with
  | some v => (Except.ok v, s)
  | none =>
    let step := s.invokeFactory registration []
    match step.1 with
    | Except.ok v =>
      (Except.ok v,
        { step.2 with
          regs := modifyAt step.2.regs regId (fun r => { r with inst := some v }) })
    | Except.error e => (Except.error e, step.2)

/-- `getTransient`: a fresh factory invocation each call. -/
def ContainerState.getTransient (s : ContainerState)
    (registration : Registration) : Except Thrown Value × ContainerState :=
  s.invokeFactory registration []

/-- `getCurrentScope` (mod.ts lines 334–338): the top of the scope stack,
or `none` when the stack is empty. -/
def ContainerState.getCurrentScope (s : ContainerState) : Option Nat :=
  s.scopeStack.head?

/-- `getScoped` (mod.ts lines 293–318): require a current scope; fetch (or
lazily create) that scope's cache; return the cached instance keyed by the
record's primary name if present, else invoke the factory and cache the
result in that scope's cache. -/
def ContainerState.getScoped (s : ContainerState)
    (registration : Registration) : Except Thrown Value × ContainerState :=
  match s.getCurrentScope with
  | none =>
    (Except.error (Thrown.errObj (noActiveScopeMsg registration.name) none), s)
  | some scopeId =>
    let cache := (lookupKey s.scopedInstances scopeId).getD []
    let s1 :=
      match lookupKey s.scopedInstances scopeId with
      | some _ => s
      | none =>
        { s with scopedInstances :=
            setKey s.scopedInstances scopeId ([] : List (String × Value)) }
    match lookupKey cache registration.name with
    | some v => (Except.ok v, s1)
    | none =>
      let step := s1.invokeFactory registration []
      match step.1 with
      | Except.ok v =>
        (Except.ok v,
          { step.2 with
            scopedInstances :=
              setKey step.2.scopedInstances scopeId
                (setKey cache registration.name v) })
      | Except.error e => (Except.error e, step.2)

/-- `getFactory`: invoke the factory with the caller's arguments, no
caching. -/
def ContainerState.getFactory (s : ContainerState)
    (registration : Registration) (args : List Value) :
    Except Thrown Value × ContainerState :=
  s.invokeFactory registration args

/-- `ServiceContainer.has`. -/
def ContainerState.has (s : ContainerState) (name : String) : Bool :=
  hasKey s.services name

/-- `ServiceContainer.get` (mod.ts lines 220–241): NotRegistered when the
name is not a key, else dispatch on the record's lifetime.  The inner
`none` branch on the heap read is unreachable for states built by the
operations (every table entry indexes into the heap) and mirrors the
non-null assertion `this.services.get(name)!` of the source. -/
def ContainerState.get (s : ContainerState) (name : String)
    (args : List Value) : Except Thrown Value × ContainerState :=
  match lookupKey s.services name with
  | none => (Except.error (Thrown.errObj (notRegisteredMsg name) none), s)
  | some regId =>
    match s.regs[regId]? with
    | none => (Except.error (Thrown.errObj (notRegisteredMsg name) none), s)
    | some registration =>
      match registration.lifetime with
      | ServiceLifetime.singleton => s.getSingleton regId registration
      | ServiceLifetime.transient => s.getTransient registration
      | ServiceLifetime.scoped => s.getScoped registration
      | ServiceLifetime.factory => s.getFactory registration args

/-- `tryGet` (mod.ts lines 358–368): `undefined` when the name is absent,
else run `get` and catch any throw as `undefined` (state mutations made
before the throw persist, as in the source). -/
def ContainerState.tryGet (s : ContainerState) (name : String)
    (args : List Value) : Value × ContainerState :=
  if s.has name then
    let step := s.get name args
    match step.1 with
    | Except.ok v => (v, step.2)
    | Except.error _ => (Value.undef, step.2)
  else (Value.undef, s)

/-- `getOrDefault` (mod.ts lines 378–385): `result !== undefined ? result :
defaultValue` on the `tryGet` result. -/
def ContainerState.getOrDefault (s : ContainerState) (name : String)
    (defaultValue : Value) (args : List Value) : Value × ContainerState :=
  let step := s.tryGet name args
  if step.1 = Value.undef then (defaultValue, step.2) else (step.1, step.2)

/-- `ServiceContainer.remove` (mod.ts lines 394–424): false on an unknown
key; otherwise resolve the record, delete its primary name and every alias
from the table, reset a singleton's cached instance to the sentinel, and
purge the primary name from every scope's cache. -/
def ContainerState.remove (s : ContainerState) (name : String) :
    Bool × ContainerState :=
  match lookupKey s.services name with
  | none => (false, s)
  | some regId =>
    match s.regs[regId]? with
    | none => (false, s)
    | some registration =>
      let mainName := registration.name
      let services1 := delKey s.services mainName
      let services2 :=
        (registration.aliases.getD []).foldl (fun m a => delKey m a) services1
      let regs1 :=
        if registration.lifetime = ServiceLifetime.singleton then
          modifyAt s.regs regId (fun r => { r with inst := none })
        else s.regs
      let scoped1 :=
        s.scopedInstances.map (fun p => (p.1, delKey p.2 mainName))
      (true,
        { s with
          services := services2
          regs := regs1
          scopedInstances := scoped1 })

/-- `createScope` (mod.ts lines 432–454): a scope is a fresh opaque token;
its cache is created lazily by `getScoped`. -/
def ContainerState.createScope (s : ContainerState) : Nat × ContainerState :=
  (s.nextScopeId, { s with nextScopeId := s.nextScopeId + 1 })

/-- The push/inner/pop shape of `scope.get` (mod.ts lines 434–443): push
the scope token, run the inner resolution, and pop in a `finally` block on
every exit path. -/
def withScope (scope : Nat)
    (inner : ContainerState → Except Thrown Value × ContainerState)
    (s : ContainerState) : Except Thrown Value × ContainerState :=
  let s1 := { s with scopeStack := scope :: s.scopeStack }
  let step := inner s1
  (step.1, { step.2 with scopeStack := step.2.scopeStack.tail })

/-- `scope.get(name, ...args)`: push this scope token, delegate to the
registry's ordinary `get`, pop the token. -/
def ContainerState.scopeGet (s : ContainerState) (scope : Nat)
    (name : String) (args : List Value) : Except Thrown Value × ContainerState :=
  withScope scope (fun t => t.get name args) s

/-- `scope.dispose()`: discard this scope's cache entry. -/
def ContainerState.disposeScope (s : ContainerState) (scope : Nat) :
    ContainerState :=
  { s with scopedInstances := delKey s.scopedInstances scope }

/-- `ServiceContainer.replace` (mod.ts lines 558–566): `remove` then
`register` under the passed name. -/
def ContainerState.replace (s : ContainerState) (name : String)
    (lifetime : ServiceLifetime) (factory : Factory)
    (aliases : Option (List String)) : Except Thrown Unit × ContainerState :=
  let step := s.remove name
  step.2.register name lifetime factory aliases

/-- A factory that always returns the same value (`() => v`). -/
def constFactory (v : Value) : Factory := fun _ _ => Except.ok v

/-- A factory returning a fresh object each invocation
(`() => new Foo()`): the result's identity token is the invocation
counter. -/
def freshFactory : Factory := fun n _ => Except.ok (Value.obj n)

/-- A factory that always throws (`() => { throw e }`). -/
def throwFactory (e : Thrown) : Factory := fun _ _ => Except.error e

/-- The cached value of `name` in the cache of scope `scopeId`, if any. -/
def scopedCached (s : ContainerState) (scopeId : Nat) (name : String) :
    Option Value :=
  lookupKey ((lookupKey s.scopedInstances scopeId).getD []) name

theorem lookupKey_setKey_self {κ α : Type} [DecidableEq κ]
    (m : List (κ × α)) (k : κ) (v : α) :
    lookupKey (setKey m k v) k = some v := by
  induction m with
  | nil => simp [setKey, lookupKey]
  | cons p rest ih =>
    by_cases h : p.1 = k
    · simp [setKey, h, lookupKey]
    · simp [setKey, h, lookupKey, ih]

theorem lookupKey_setKey_ne {κ α : Type} [DecidableEq κ]
    (m : List (κ × α)) (k k2 : κ) (v : α) (h : k2 ≠ k) :
    lookupKey (setKey m k v) k2 = lookupKey m k2 := by
  have hne : ¬ k = k2 := fun hh => h hh.symm
  induction m with
  | nil => simp [setKey, lookupKey, hne]
  | cons p rest ih =>
    by_cases hp : p.1 = k
    · subst hp
      simp [setKey, lookupKey, hne]
    · simp [setKey, hp, lookupKey, ih]

theorem hasKey_setKey_self {κ α : Type} [DecidableEq κ]
    (m : List (κ × α)) (k : κ) (v : α) :
    hasKey (setKey m k v) k = true := by
  simp [hasKey, lookupKey_setKey_self]

theorem hasKey_setKey_ne {κ α : Type} [DecidableEq κ]
    (m : List (κ × α)) (k k2 : κ) (v : α) (h : k2 ≠ k) :
    hasKey (setKey m k v) k2 = hasKey m k2 := by
  simp [hasKey, lookupKey_setKey_ne m k k2 v h]

theorem lookupKey_delKey_self {κ α : Type} [DecidableEq κ]
    (m : List (κ × α)) (k : κ) :
    lookupKey (delKey m k) k = none := by
  induction m with
  | nil => simp [delKey, lookupKey]
  | cons p rest ih =>
    by_cases h : p.1 = k
    · simp [delKey, h, ih]
    · simp [delKey, h, lookupKey, ih]

theorem lookupKey_delKey_ne {κ α : Type} [DecidableEq κ]
    (m : List (κ × α)) (k k2 : κ) (h : k2 ≠ k) :
    lookupKey (delKey m k) k2 = lookupKey m k2 := by
  have hne : ¬ k = k2 := fun hh => h hh.symm
  induction m with
  | nil => simp [delKey]
  | cons p rest ih =>
    by_cases hp : p.1 = k
    · subst hp
      simp [delKey, lookupKey, hne, ih]
    · simp [delKey, hp, lookupKey, ih]

theorem hasKey_delKey_self {κ α : Type} [DecidableEq κ]
    (m : List (κ × α)) (k : κ) :
    hasKey (delKey m k) k = false := by
  simp [hasKey, lookupKey_delKey_self]

theorem hasKey_delKey_of_not {κ α : Type} [DecidableEq κ]
    (m : List (κ × α)) (k k2 : κ) (h : hasKey m k2 = false) :
    hasKey (delKey m k) k2 = false := by
  by_cases hk : k2 = k
  · subst hk; exact hasKey_delKey_self m k2
  · unfold hasKey at h ⊢
    rw [lookupKey_delKey_ne m k k2 hk]
    exact h

theorem getQ_modifyAt_self {α : Type} (l : List α) (i : Nat) (f : α → α) :
    (modifyAt l i f)[i]? = l[i]?.map f := by
  induction l generalizing i with
  | nil => cases i <;> simp [modifyAt]
  | cons x rest ih =>
    cases i with
    | zero => simp [modifyAt]
    | succ n => simpa [modifyAt] using ih n

theorem modifyAt_length {α : Type} (l : List α) (i : Nat) (f : α → α) :
    (modifyAt l i f).length = l.length := by
  induction l generalizing i with
  | nil => cases i <;> simp [modifyAt]
  | cons x rest ih =>
    cases i with
    | zero => simp [modifyAt]
    | succ n => simp [modifyAt, ih n]

theorem getQ_append_length {α : Type} (l : List α) (a : α) :
    (l ++ [a])[l.length]? = some a := by
  induction l with
  | nil => rfl
  | cons x rest ih => simp [ih]

/-- The alias loop never changes the binding of a key that is already
present: it only checks freshness and appends fresh keys. -/
theorem registerAliasList_lookup_preserved (as : List String) (regId : Nat)
    (m : List (String × Nat)) (k : String) (h : hasKey m k = true) :
    lookupKey (registerAliasList regId m as).2 k = lookupKey m k := by
  induction as generalizing m with
  | nil => rfl
  | cons a rest ih =>
    by_cases ha : hasKey m a = true
    · simp [registerAliasList, ha]
    · have hka : k ≠ a := by
        intro hk; subst hk; rw [h] at ha; exact ha rfl
      have hset : lookupKey (setKey m a regId) k = lookupKey m k :=
        lookupKey_setKey_ne m a k regId hka
      have hhas : hasKey (setKey m a regId) k = true := by
        simpa [hasKey, hset] using h
      simp only [registerAliasList, ha, Bool.false_eq_true, if_false]
      rw [ih (setKey m a regId) hhas, hset]

theorem registerAliasList_has_preserved (as : List String) (regId : Nat)
    (m : List (String × Nat)) (k : String) (h : hasKey m k = true) :
    hasKey (registerAliasList regId m as).2 k = true := by
  have h2 := h
  unfold hasKey at h2 ⊢
  rw [registerAliasList_lookup_preserved as regId m k h]
  exact h2

theorem invokeFactory_scopeStack (s : ContainerState) (reg : Registration)
    (args : List Value) :
    ((s.invokeFactory reg args).2).scopeStack = s.scopeStack := by
  unfold ContainerState.invokeFactory
  cases h : reg.factory s.invokeCount args <;> simp [h]

theorem getSingleton_scopeStack (s : ContainerState) (regId : Nat)
    (reg : Registration) :
    ((s.getSingleton regId reg).2).scopeStack = s.scopeStack := by
  unfold ContainerState.getSingleton
  cases hinst : reg.inst with
  | some v => rfl
  | none =>
    cases h : (s.invokeFactory reg []).1 <;>
      simp [h, invokeFactory_scopeStack]

theorem getScoped_scopeStack (s : ContainerState) (reg : Registration) :
    ((s.getScoped reg).2).scopeStack = s.scopeStack := by
  unfold ContainerState.getScoped
  cases htop : s.getCurrentScope with
  | none => rfl
  | some scopeId =>
    cases hc : lookupKey s.scopedInstances scopeId with
    | some cache =>
      cases hhit : lookupKey cache reg.name with
      | some v => simp [hc, hhit]
      | none =>
        cases h : (s.invokeFactory reg []).1 <;>
          simp [hc, hhit, h, invokeFactory_scopeStack]
    | none =>
      cases h : (ContainerState.invokeFactory { s with scopedInstances := setKey s.scopedInstances scopeId ([] : List (String × Value)) } reg []).1 <;>
        simp [hc, h, lookupKey, invokeFactory_scopeStack]

theorem has_of_lookup (s : ContainerState) (name : String) (regId : Nat)
    (hs : lookupKey s.services name = some regId) : s.has name = true := by
  unfold ContainerState.has hasKey
  rw [hs]
  rfl

theorem run_singleton_cached (s : ContainerState) (name : String)
    (args : List Value) (regId : Nat) (reg : Registration) (v : Value)
    (hs : lookupKey s.services name = some regId)
    (hr : s.regs[regId]? = some reg)
    (hlt : reg.lifetime = ServiceLifetime.singleton)
    (hinst : reg.inst = some v) :
    s.get name args = (Except.ok v, s) := by
  simp [ContainerState.get, hs, hr, hlt, ContainerState.getSingleton, hinst]

theorem run_singleton_fresh (s : ContainerState) (name : String)
    (args : List Value) (regId : Nat) (reg : Registration) (v : Value)
    (hs : lookupKey s.services name = some regId)
    (hr : s.regs[regId]? = some reg)
    (hlt : reg.lifetime = ServiceLifetime.singleton)
    (hinst : reg.inst = none)
    (hf : reg.factory s.invokeCount [] = Except.ok v) :
    s.get name args =
      (Except.ok v,
        { s with
          regs := modifyAt s.regs regId (fun r => { r with inst := some v })
          invokeCount := s.invokeCount + 1 }) := by
  simp [ContainerState.get, hs, hr, hlt, ContainerState.getSingleton, hinst,
    ContainerState.invokeFactory, hf]

theorem run_singleton_throw (s : ContainerState) (name : String)
    (args : List Value) (regId : Nat) (reg : Registration) (e : Thrown)
    (hs : lookupKey s.services name = some regId)
    (hr : s.regs[regId]? = some reg)
    (hlt : reg.lifetime = ServiceLifetime.singleton)
    (hinst : reg.inst = none)
    (hf : reg.factory s.invokeCount [] = Except.error e) :
    s.get name args =
      (Except.error (Thrown.errObj
          (wrapMessage reg.name (thrownMessage e)) (thrownStack e)),
        { s with invokeCount := s.invokeCount + 1 }) := by
  simp [ContainerState.get, hs, hr, hlt, ContainerState.getSingleton, hinst,
    ContainerState.invokeFactory, hf]

theorem run_transient_ok (s : ContainerState) (name : String)
    (args : List Value) (regId : Nat) (reg : Registration) (v : Value)
    (hs : lookupKey s.services name = some regId)
    (hr : s.regs[regId]? = some reg)
    (hlt : reg.lifetime = ServiceLifetime.transient)
    (hf : reg.factory s.invokeCount [] = Except.ok v) :
    s.get name args =
      (Except.ok v, { s with invokeCount := s.invokeCount + 1 }) := by
  simp [ContainerState.get, hs, hr, hlt, ContainerState.getTransient,
    ContainerState.invokeFactory, hf]

theorem run_transient_throw (s : ContainerState) (name : String)
    (args : List Value) (regId : Nat) (reg : Registration) (e : Thrown)
    (hs : lookupKey s.services name = some regId)
    (hr : s.regs[regId]? = some reg)
    (hlt : reg.lifetime = ServiceLifetime.transient)
    (hf : reg.factory s.invokeCount [] = Except.error e) :
    s.get name args =
      (Except.error (Thrown.errObj
          (wrapMessage reg.name (thrownMessage e)) (thrownStack e)),
        { s with invokeCount := s.invokeCount + 1 }) := by
  simp [ContainerState.get, hs, hr, hlt, ContainerState.getTransient,
    ContainerState.invokeFactory, hf]

theorem run_factory_ok (s : ContainerState) (name : String)
    (args : List Value) (regId : Nat) (reg : Registration) (v : Value)
    (hs : lookupKey s.services name = some regId)
    (hr : s.regs[regId]? = some reg)
    (hlt : reg.lifetime = ServiceLifetime.factory)
    (hf : reg.factory s.invokeCount args = Except.ok v) :
    s.get name args =
      (Except.ok v, { s with invokeCount := s.invokeCount + 1 }) := by
  simp [ContainerState.get, hs, hr, hlt, ContainerState.getFactory,
    ContainerState.invokeFactory, hf]

theorem run_factory_throw (s : ContainerState) (name : String)
    (args : List Value) (regId : Nat) (reg : Registration) (e : Thrown)
    (hs : lookupKey s.services name = some regId)
    (hr : s.regs[regId]? = some reg)
    (hlt : reg.lifetime = ServiceLifetime.factory)
    (hf : reg.factory s.invokeCount args = Except.error e) :
    s.get name args =
      (Except.error (Thrown.errObj
          (wrapMessage reg.name (thrownMessage e)) (thrownStack e)),
        { s with invokeCount := s.invokeCount + 1 }) := by
  simp [ContainerState.get, hs, hr, hlt, ContainerState.getFactory,
    ContainerState.invokeFactory, hf]

theorem run_scoped_noscope (s : ContainerState) (name : String)
    (args : List Value) (regId : Nat) (reg : Registration)
    (hs : lookupKey s.services name = some regId)
    (hr : s.regs[regId]? = some reg)
    (hlt : reg.lifetime = ServiceLifetime.scoped)
    (hstack : s.scopeStack = []) :
    s.get name args =
      (Except.error (Thrown.errObj (noActiveScopeMsg reg.name) none), s) := by
  simp [ContainerState.get, hs, hr, hlt, ContainerState.getScoped,
    ContainerState.getCurrentScope, hstack]

theorem run_scoped_hit (s : ContainerState) (name : String)
    (args : List Value) (regId : Nat) (reg : Registration) (scopeId : Nat)
    (cache : List (String × Value)) (v : Value)
    (hs : lookupKey s.services name = some regId)
    (hr : s.regs[regId]? = some reg)
    (hlt : reg.lifetime = ServiceLifetime.scoped)
    (htop : s.scopeStack.head? = some scopeId)
    (hc : lookupKey s.scopedInstances scopeId = some cache)
    (hhit : lookupKey cache reg.name = some v) :
    s.get name args = (Except.ok v, s) := by
  simp [ContainerState.get, hs, hr, hlt, ContainerState.getScoped,
    ContainerState.getCurrentScope, htop, hc, hhit]

theorem run_scoped_new (s : ContainerState) (name : String)
    (args : List Value) (regId : Nat) (reg : Registration) (scopeId : Nat)
    (v : Value)
    (hs : lookupKey s.services name = some regId)
    (hr : s.regs[regId]? = some reg)
    (hlt : reg.lifetime = ServiceLifetime.scoped)
    (htop : s.scopeStack.head? = some scopeId)
    (hc : lookupKey s.scopedInstances scopeId = none)
    (hf : reg.factory s.invokeCount [] = Except.ok v) :
    s.get name args =
      (Except.ok v,
        { s with
          scopedInstances :=
            setKey (setKey s.scopedInstances scopeId []) scopeId
              [(reg.name, v)]
          invokeCount := s.invokeCount + 1 }) := by
  simp [ContainerState.get, hs, hr, hlt, ContainerState.getScoped,
    ContainerState.getCurrentScope, htop, hc, lookupKey,
    ContainerState.invokeFactory, hf, setKey]

theorem run_scoped_miss (s : ContainerState) (name : String)
    (args : List Value) (regId : Nat) (reg : Registration) (scopeId : Nat)
    (cache : List (String × Value)) (v : Value)
    (hs : lookupKey s.services name = some regId)
    (hr : s.regs[regId]? = some reg)
    (hlt : reg.lifetime = ServiceLifetime.scoped)
    (htop : s.scopeStack.head? = some scopeId)
    (hc : lookupKey s.scopedInstances scopeId = some cache)
    (hmiss : lookupKey cache reg.name = none)
    (hf : reg.factory s.invokeCount [] = Except.ok v) :
    s.get name args =
      (Except.ok v,
        { s with
          scopedInstances :=
            setKey s.scopedInstances scopeId (setKey cache reg.name v)
          invokeCount := s.invokeCount + 1 }) := by
  simp [ContainerState.get, hs, hr, hlt, ContainerState.getScoped,
    ContainerState.getCurrentScope, htop, hc, hmiss,
    ContainerState.invokeFactory, hf]

theorem run_scoped_throw (s : ContainerState) (name : String)
    (args : List Value) (regId : Nat) (reg : Registration) (scopeId : Nat)
    (e : Thrown)
    (hs : lookupKey s.services name = some regId)
    (hr : s.regs[regId]? = some reg)
    (hlt : reg.lifetime = ServiceLifetime.scoped)
    (htop : s.scopeStack.head? = some scopeId)
    (hmiss : scopedCached s scopeId reg.name = none)
    (hf : reg.factory s.invokeCount [] = Except.error e) :
    (s.get name args).1 =
      Except.error (Thrown.errObj
        (wrapMessage reg.name (thrownMessage e)) (thrownStack e)) := by
  unfold scopedCached at hmiss
  cases hc : lookupKey s.scopedInstances scopeId with
  | some cache =>
    rw [hc] at hmiss
    simp only [Option.getD] at hmiss
    simp [ContainerState.get, hs, hr, hlt, ContainerState.getScoped,
      ContainerState.getCurrentScope, htop, hc, hmiss,
      ContainerState.invokeFactory, hf]
  | none =>
    simp [ContainerState.get, hs, hr, hlt, ContainerState.getScoped,
      ContainerState.getCurrentScope, htop, hc, lookupKey,
      ContainerState.invokeFactory, hf]

theorem tryGet_of_ok (s : ContainerState) (name : String) (args : List Value)
    (v : Value) (s2 : ContainerState) (hhas : s.has name = true)
    (hget : s.get name args = (Except.ok v, s2)) :
    s.tryGet name args = (v, s2) := by
  simp [ContainerState.tryGet, hhas, hget]

theorem tryGet_of_error (s : ContainerState) (name : String)
    (args : List Value) (e : Thrown) (hhas : s.has name = true)
    (hget : (s.get name args).1 = Except.error e) :
    (s.tryGet name args).1 = Value.undef := by
  simp [ContainerState.tryGet, hhas, hget]

/-- `get` never touches the scope stack: every lifetime strategy preserves
it. -/
theorem get_scopeStack (s : ContainerState) (name : String)
    (args : List Value) :
    ((s.get name args).2).scopeStack = s.scopeStack := by
  unfold ContainerState.get
  cases hl : lookupKey s.services name with
  | none => rfl
  | some regId =>
    simp only []
    cases hr : s.regs[regId]? with
    | none => rfl
    | some reg =>
      simp only []
      cases hlt : reg.lifetime <;>
        simp [getSingleton_scopeStack, getScoped_scopeStack,
          ContainerState.getTransient, ContainerState.getFactory,
          invokeFactory_scopeStack]

/-- A FactoryFailure message is never a NoActiveScope message: the two
texts differ in their first character. -/
theorem wrapMessage_ne_noActiveScopeMsg (n1 m n2 : String) :
    wrapMessage n1 m ≠ noActiveScopeMsg n2 := by
  intro h
  have hd : (wrapMessage n1 m).data = (noActiveScopeMsg n2).data := by rw [h]
  unfold wrapMessage noActiveScopeMsg at hd
  have e1 : ("服务 \"" : String).data = ['服', '务', ' ', '"'] := by decide
  have e2 : ("作用域服务 \"" : String).data =
      ['作', '用', '域', '服', '务', ' ', '"'] := by decide
  simp [String.data_append, e1, e2] at hd

/-- The wrapped message contains the service's primary name as a
substring. -/
theorem wrapMessage_contains_name (n m : String) :
    ∃ x y, wrapMessage n m = x ++ n ++ y :=
  ⟨"服务 \"", "\" 创建失败: " ++ m, by
    unfold wrapMessage
    rw [String.append_assoc]⟩

/-- The wrapped message contains the original error's message as a
substring. -/
theorem wrapMessage_contains_msg (n m : String) :
    ∃ x y, wrapMessage n m = x ++ m ++ y :=
  ⟨"服务 \"" ++ n ++ "\" 创建失败: ", "", by
    unfold wrapMessage
    simp⟩

/-- Claim C1, counterexample: registering `"b"` with alias `"a"` while
`"a"` is already a key fails with the DuplicateAlias error, yet the table
is not left as it was — the primary name `"b"` has been installed by the
failing call. -/
theorem C1_counterexample :
    let s1 := (ContainerState.empty.register "a" ServiceLifetime.singleton
      (constFactory Value.null) none).2
    let step := s1.register "b" ServiceLifetime.singleton
      (constFactory Value.null) (some ["a"])
    step.1 = Except.error (Thrown.errObj (dupAliasMsg "a") none) ∧
      s1.has "b" = false ∧ step.2.has "b" = true := by
  exact ⟨rfl, rfl, rfl⟩

/-- Claim C1, amended: a register call that fails with DuplicateName
(the name is already a key) leaves the container exactly unchanged; a
register call on a fresh name — even one that then fails with
DuplicateAlias — has already installed the primary name, and never adds to,
changes, or overwrites the binding of any key that was present before the
call. -/
theorem C1_amended_register_failure (s : ContainerState) (name : String)
    (lt : ServiceLifetime) (f : Factory) (al : Option (List String)) :
    (s.has name = true →
      s.register name lt f al =
        (Except.error (Thrown.errObj (dupNameMsg name) none), s)) ∧
    (s.has name = false →
      ((s.register name lt f al).2.has name = true ∧
        ∀ k, hasKey s.services k = true →
          lookupKey ((s.register name lt f al).2).services k =
            lookupKey s.services k)) := by
  constructor
  · intro h
    have h2 : hasKey s.services name = true := h
    simp [ContainerState.register, h2]
  · intro h
    have h2 : hasKey s.services name = false := h
    have hreg : (s.register name lt f al).2.services =
        (registerAliasList s.regs.length
          (setKey s.services name s.regs.length) (al.getD [])).2 := by
      simp [ContainerState.register, h2]
    constructor
    · show hasKey (s.register name lt f al).2.services name = true
      rw [hreg]
      exact registerAliasList_has_preserved _ _ _ _
        (hasKey_setKey_self s.services name s.regs.length)
    · intro k hk
      have hkname : k ≠ name := by
        intro hkn; subst hkn; rw [hk] at h2; exact absurd h2 (by simp)
      have hset : lookupKey (setKey s.services name s.regs.length) k =
          lookupKey s.services k :=
        lookupKey_setKey_ne s.services name k s.regs.length hkname
      have hhas : hasKey (setKey s.services name s.regs.length) k = true := by
        unfold hasKey at hk ⊢
        rw [hset]; exact hk
      rw [hreg, registerAliasList_lookup_preserved _ _ _ _ hhas, hset]

/-- Claim C1, witness for the amended theorem at concrete inputs. -/
theorem C1_amended_witness :
    let s1 := (ContainerState.empty.register "a" ServiceLifetime.singleton
      (constFactory Value.null) none).2
    s1.register "a" ServiceLifetime.transient (constFactory Value.null) none =
      (Except.error (Thrown.errObj (dupNameMsg "a") none), s1) ∧
    ((s1.register "b" ServiceLifetime.singleton (constFactory Value.null)
      (some ["a"])).2.has "b" = true) := by
  intro s1
  constructor
  · exact (C1_amended_register_failure s1 "a" ServiceLifetime.transient
      (constFactory Value.null) none).1 rfl
  · exact ((C1_amended_register_failure s1 "b" ServiceLifetime.singleton
      (constFactory Value.null) (some ["a"])).2 rfl).1

/-- Claim C2: for a registered singleton whose instance slot holds the
`NOT_CREATED` sentinel and whose factory returns `v` (any value, including
`undefined`, `null`, `0`, `""`), the first `get` returns `v`, the second
`get` returns the identical cached `v` while leaving the container state
completely untouched (in particular the factory is not re-invoked), and the
invocation counter shows exactly one factory run across the registration's
lifetime. -/
theorem C2_singleton_cached_once (s : ContainerState) (name : String)
    (regId : Nat) (reg : Registration) (v : Value)
    (hs : lookupKey s.services name = some regId)
    (hr : s.regs[regId]? = some reg)
    (hlt : reg.lifetime = ServiceLifetime.singleton)
    (hinst : reg.inst = none)
    (hf : reg.factory s.invokeCount [] = Except.ok v) :
    (s.get name []).1 = Except.ok v ∧
      ((s.get name []).2.get name []) = (Except.ok v, (s.get name []).2) ∧
      ((s.get name []).2).invokeCount = s.invokeCount + 1 := by
  have h1 := run_singleton_fresh s name [] regId reg v hs hr hlt hinst hf
  rw [h1]
  refine ⟨rfl, ?_, rfl⟩
  refine run_singleton_cached _ name [] regId { reg with inst := some v } v
    hs ?_ hlt rfl
  show (modifyAt s.regs regId (fun r => { r with inst := some v }))[regId]? = _
  rw [getQ_modifyAt_self, hr]
  rfl

/-- Claim C2, witness: a singleton whose factory returns `undefined`. -/
theorem C2_witness :
    let s := (ContainerState.empty.registerSingleton "svc"
      (constFactory Value.undef) none).2
    (s.get "svc" []).1 = Except.ok Value.undef ∧
      ((s.get "svc" []).2.get "svc" []) =
        (Except.ok Value.undef, (s.get "svc" []).2) ∧
      ((s.get "svc" []).2).invokeCount = s.invokeCount + 1 := by
  intro s
  exact C2_singleton_cached_once s "svc" 0
    { name := "svc", lifetime := ServiceLifetime.singleton,
      factory := constFactory Value.undef, inst := none, aliases := none }
    Value.undef rfl rfl rfl rfl rfl

/-- Claim C4: whatever the registration's lifetime, when the user-supplied
factory throws `e` during resolution, `get` surfaces an error whose message
is the wrapper embedding the service's primary name and the original
error's message (`String(e)` for non-`Error` throwables), carrying the
original error's stack trace where one exists; the wrapped message contains
the primary name and the original message as substrings; and `tryGet` of
the same name returns `undefined` instead. -/
theorem C4_factory_failure_wrapped (s : ContainerState) (name : String)
    (args : List Value) (regId : Nat) (reg : Registration) (e : Thrown)
    (hs : lookupKey s.services name = some regId)
    (hr : s.regs[regId]? = some reg)
    (hfail : ∀ n as2, reg.factory n as2 = Except.error e)
    (hinst : reg.inst = none)
    (hscope : reg.lifetime = ServiceLifetime.scoped →
      ∃ scopeId, s.scopeStack.head? = some scopeId ∧
        scopedCached s scopeId reg.name = none) :
    (s.get name args).1 =
      Except.error (Thrown.errObj
        (wrapMessage reg.name (thrownMessage e)) (thrownStack e)) ∧
    (s.tryGet name args).1 = Value.undef ∧
    (∃ x y, wrapMessage reg.name (thrownMessage e) = x ++ reg.name ++ y) ∧
    (∃ x y, wrapMessage reg.name (thrownMessage e) =
      x ++ thrownMessage e ++ y) := by
  have hget : (s.get name args).1 =
      Except.error (Thrown.errObj
        (wrapMessage reg.name (thrownMessage e)) (thrownStack e)) := by
    cases hlt : reg.lifetime
    · rw [run_singleton_throw s name args regId reg e hs hr hlt hinst
        (hfail s.invokeCount [])]
    · rw [run_transient_throw s name args regId reg e hs hr hlt
        (hfail s.invokeCount [])]
    · obtain ⟨scopeId, htop, hmiss⟩ := hscope hlt
      exact run_scoped_throw s name args regId reg scopeId e hs hr hlt htop
        hmiss (hfail s.invokeCount [])
    · rw [run_factory_throw s name args regId reg e hs hr hlt
        (hfail s.invokeCount args)]
  exact ⟨hget,
    tryGet_of_error s name args _ (has_of_lookup s name regId hs) hget,
    wrapMessage_contains_name reg.name (thrownMessage e),
    wrapMessage_contains_msg reg.name (thrownMessage e)⟩

/-- Claim C4, witness: a transient service whose factory throws an `Error`
with message `"boom"` and a stack trace. -/
theorem C4_witness :
    let e := Thrown.errObj "boom" (some "trace")
    let s := (ContainerState.empty.registerTransient "svc"
      (throwFactory e) none).2
    (s.get "svc" []).1 =
      Except.error (Thrown.errObj
        (wrapMessage "svc" (thrownMessage e)) (thrownStack e)) ∧
    (s.tryGet "svc" []).1 = Value.undef ∧
    (∃ x y, wrapMessage "svc" (thrownMessage e) = x ++ "svc" ++ y) ∧
    (∃ x y, wrapMessage "svc" (thrownMessage e) =
      x ++ thrownMessage e ++ y) := by
  intro e s
  exact C4_factory_failure_wrapped s "svc" [] 0
    { name := "svc", lifetime := ServiceLifetime.transient,
      factory := throwFactory e, inst := none, aliases := none }
    e rfl rfl (fun _ _ => rfl) rfl (fun h => nomatch h)

/-- Claim C5: for a registered scoped-lifetime service, `get` yields the
NoActiveScope error exactly when the scope stack is empty at resolution
time: with an empty stack it fails with that error (leaving the state
untouched) and `tryGet` of the same name yields `undefined`; with a
non-empty stack the result is never a NoActiveScope error, whatever else
happens. -/
theorem C5_noActiveScope_iff_empty_stack (s : ContainerState) (name : String)
    (args : List Value) (regId : Nat) (reg : Registration)
    (hs : lookupKey s.services name = some regId)
    (hr : s.regs[regId]? = some reg)
    (hlt : reg.lifetime = ServiceLifetime.scoped) :
    (s.scopeStack = [] →
      s.get name args =
        (Except.error (Thrown.errObj (noActiveScopeMsg reg.name) none), s) ∧
      (s.tryGet name args).1 = Value.undef) ∧
    (s.scopeStack ≠ [] →
      ∀ st, (s.get name args).1 ≠
        Except.error (Thrown.errObj (noActiveScopeMsg reg.name) st)) := by
  constructor
  · intro hstack
    have hget := run_scoped_noscope s name args regId reg hs hr hlt hstack
    refine ⟨hget, ?_⟩
    exact tryGet_of_error s name args _ (has_of_lookup s name regId hs)
      (by rw [hget])
  · intro hne st
    obtain ⟨scopeId, rest, htop⟩ :
        ∃ scopeId rest, s.scopeStack = scopeId :: rest := by
      cases hst : s.scopeStack with
      | nil => exact absurd hst hne
      | cons a r => exact ⟨a, r, rfl⟩
    have htop2 : s.scopeStack.head? = some scopeId := by rw [htop]; rfl
    cases hc : lookupKey s.scopedInstances scopeId with
    | some cache =>
      cases hhit : lookupKey cache reg.name with
      | some v =>
        rw [run_scoped_hit s name args regId reg scopeId cache v hs hr hlt
          htop2 hc hhit]
        simp
      | none =>
        cases hfac : reg.factory s.invokeCount [] with
        | ok v =>
          rw [run_scoped_miss s name args regId reg scopeId cache v hs hr hlt
            htop2 hc hhit hfac]
          simp
        | error e =>
          rw [run_scoped_throw s name args regId reg scopeId e hs hr hlt htop2
            (by unfold scopedCached; rw [hc]; exact hhit) hfac]
          intro h
          have hmsg : wrapMessage reg.name (thrownMessage e) =
              noActiveScopeMsg reg.name := by
            injection h with h2
            injection h2 with h3 h4
          exact wrapMessage_ne_noActiveScopeMsg reg.name (thrownMessage e)
            reg.name hmsg
    | none =>
      have hmiss : scopedCached s scopeId reg.name = none := by
        unfold scopedCached; rw [hc]; rfl
      cases hfac : reg.factory s.invokeCount [] with
      | ok v =>
        rw [run_scoped_new s name args regId reg scopeId v hs hr hlt htop2 hc
          hfac]
        simp
      | error e =>
        rw [run_scoped_throw s name args regId reg scopeId e hs hr hlt htop2
          hmiss hfac]
        intro h
        have hmsg : wrapMessage reg.name (thrownMessage e) =
            noActiveScopeMsg reg.name := by
          injection h with h2
          injection h2 with h3 h4
        exact wrapMessage_ne_noActiveScopeMsg reg.name (thrownMessage e)
          reg.name hmsg

/-- Claim C5, witness: a scoped service resolved with an empty stack raises
NoActiveScope and `tryGet` gives `undefined`; the same service resolved
with a scope on the stack does not raise NoActiveScope. -/
theorem C5_witness :
    let s := (ContainerState.empty.registerScoped "sc"
      (constFactory Value.null) none).2
    (s.get "sc" [] =
      (Except.error (Thrown.errObj (noActiveScopeMsg "sc") none), s) ∧
      (s.tryGet "sc" []).1 = Value.undef) ∧
    (({ s with scopeStack := [7] } : ContainerState).get "sc" []).1 ≠
      Except.error (Thrown.errObj (noActiveScopeMsg "sc") none) := by
  intro s
  constructor
  · exact (C5_noActiveScope_iff_empty_stack s "sc" [] 0
      { name := "sc", lifetime := ServiceLifetime.scoped,
        factory := constFactory Value.null, inst := none, aliases := none }
      rfl rfl rfl).1 rfl
  · exact (C5_noActiveScope_iff_empty_stack { s with scopeStack := [7] }
      "sc" [] 0
      { name := "sc", lifetime := ServiceLifetime.scoped,
        factory := constFactory Value.null, inst := none, aliases := none }
      rfl rfl rfl).2 (by simp) none

/-- Claim C9: `getOrDefault` substitutes the fallback only for an
`undefined` result: a registered singleton whose factory legitimately
returns `v ≠ undefined` (for instance `null`, `0` or `""`) comes back
unchanged, not replaced by the fallback; an unregistered name yields the
fallback. -/
theorem C9_getOrDefault_keeps_nullish (s : ContainerState) (name : String)
    (d : Value) (regId : Nat) (reg : Registration) (v : Value)
    (hs : lookupKey s.services name = some regId)
    (hr : s.regs[regId]? = some reg)
    (hlt : reg.lifetime = ServiceLifetime.singleton)
    (hinst : reg.inst = none)
    (hf : reg.factory s.invokeCount [] = Except.ok v)
    (hv : v ≠ Value.undef) :
    (s.getOrDefault name d []).1 = v ∧
    (∀ name2, hasKey s.services name2 = false →
      (s.getOrDefault name2 d []).1 = d) := by
  have hg := run_singleton_fresh s name [] regId reg v hs hr hlt hinst hf
  have ht := tryGet_of_ok s name [] v _ (has_of_lookup s name regId hs) hg
  constructor
  · simp [ContainerState.getOrDefault, ht, hv]
  · intro name2 h2
    have hhas : s.has name2 = false := h2
    simp [ContainerState.getOrDefault, ContainerState.tryGet, hhas]

/-- Claim C9, witness: a singleton factory returning `null` passes through
`getOrDefault` unchanged; an unknown name yields the fallback. -/
theorem C9_witness :
    let s := (ContainerState.empty.registerSingleton "svc"
      (constFactory Value.null) none).2
    (s.getOrDefault "svc" (Value.num 42) []).1 = Value.null ∧
    (s.getOrDefault "other" (Value.num 42) []).1 = Value.num 42 := by
  intro s
  have h := C9_getOrDefault_keeps_nullish s "svc" (Value.num 42) 0
    { name := "svc", lifetime := ServiceLifetime.singleton,
      factory := constFactory Value.null, inst := none, aliases := none }
    Value.null rfl rfl rfl rfl rfl (by simp)
  exact ⟨h.1, h.2 "other" rfl⟩

theorem hasKey_foldl_delKey_of_not {κ α : Type} [DecidableEq κ]
    (l : List κ) (m : List (κ × α)) (k : κ) (h : hasKey m k = false) :
    hasKey (l.foldl (fun m2 a => delKey m2 a) m) k = false := by
  induction l generalizing m with
  | nil => exact h
  | cons b rest ih => exact ih (delKey m b) (hasKey_delKey_of_not m b k h)

theorem hasKey_foldl_delKey_of_mem {κ α : Type} [DecidableEq κ]
    (l : List κ) (m : List (κ × α)) (a : κ) (ha : a ∈ l) :
    hasKey (l.foldl (fun m2 x => delKey m2 x) m) a = false := by
  induction l generalizing m with
  | nil => cases ha
  | cons b rest ih =>
    rcases List.mem_cons.mp ha with h1 | h2
    · subst h1
      exact hasKey_foldl_delKey_of_not rest (delKey m a) a
        (hasKey_delKey_self m a)
    · exact ih (delKey m b) h2

theorem lookupKey_map_delKey {κ κ2 α : Type} [DecidableEq κ] [DecidableEq κ2]
    (m : List (κ × List (κ2 × α))) (n : κ2) (k : κ) :
    lookupKey (m.map fun p => (p.1, delKey p.2 n)) k =
      (lookupKey m k).map (fun c => delKey c n) := by
  induction m with
  | nil => rfl
  | cons p rest ih =>
    by_cases h : p.1 = k
    · simp [lookupKey, h]
    · simp [lookupKey, h, ih]

/-- Claim C6: `remove` called with a primary name or an alias of an
existing registration returns `true`, deletes the table entry under the
record's primary name and under every one of its aliases, purges the
record's primary name from every scope's cache, and resets a singleton
record's cached instance to the `NOT_CREATED` sentinel; `remove` on a name
that is not a key returns `false` and leaves the whole container
unchanged. -/
theorem C6_remove_deletes_everywhere (s : ContainerState) (q : String)
    (regId : Nat) (reg : Registration)
    (hs : lookupKey s.services q = some regId)
    (hr : s.regs[regId]? = some reg) :
    (s.remove q).1 = true ∧
    (s.remove q).2.has reg.name = false ∧
    (∀ a, a ∈ reg.aliases.getD [] → (s.remove q).2.has a = false) ∧
    (∀ scopeId, scopedCached (s.remove q).2 scopeId reg.name = none) ∧
    (reg.lifetime = ServiceLifetime.singleton →
      ((s.remove q).2).regs[regId]? = some { reg with inst := none }) ∧
    (∀ q2, hasKey s.services q2 = false → s.remove q2 = (false, s)) := by
  have hrem : s.remove q =
      (true,
        { s with
          services := (reg.aliases.getD []).foldl (fun m a => delKey m a)
            (delKey s.services reg.name)
          regs :=
            if reg.lifetime = ServiceLifetime.singleton then
              modifyAt s.regs regId (fun r => { r with inst := none })
            else s.regs
          scopedInstances :=
            s.scopedInstances.map (fun p => (p.1, delKey p.2 reg.name)) }) := by
    simp [ContainerState.remove, hs, hr]
  refine ⟨by rw [hrem], ?_, ?_, ?_, ?_, ?_⟩
  · rw [hrem]
    exact hasKey_foldl_delKey_of_not _ _ _ (hasKey_delKey_self s.services reg.name)
  · intro a ha
    rw [hrem]
    exact hasKey_foldl_delKey_of_mem _ _ a ha
  · intro scopeId
    rw [hrem]
    unfold scopedCached
    show lookupKey ((lookupKey (s.scopedInstances.map
      (fun p => (p.1, delKey p.2 reg.name))) scopeId).getD []) reg.name = none
    rw [lookupKey_map_delKey]
    cases lookupKey s.scopedInstances scopeId with
    | none => rfl
    | some cache => exact lookupKey_delKey_self cache reg.name
  · intro hl
    rw [hrem]
    show (if reg.lifetime = ServiceLifetime.singleton then
      modifyAt s.regs regId (fun r => { r with inst := none })
      else s.regs)[regId]? = _
    rw [if_pos hl, getQ_modifyAt_self, hr]
    rfl
  · intro q2 h2
    have hnone : lookupKey s.services q2 = none := by
      unfold hasKey at h2
      cases hl : lookupKey s.services q2 with
      | none => rfl
      | some x => rw [hl] at h2; exact absurd h2 (by simp)
    simp [ContainerState.remove, hnone]

/-- Claim C6, witness: removing by alias `"a1"` deletes `"t"`, `"a1"` and
`"a2"` together and returns `true`; removing an unknown name returns
`false` and changes nothing. -/
theorem C6_witness :
    let s := (ContainerState.empty.registerSingleton "t"
      (constFactory Value.null) (some ["a1", "a2"])).2
    (s.remove "a1").1 = true ∧
    (s.remove "a1").2.has "t" = false ∧
    (s.remove "a1").2.has "a2" = false ∧
    s.remove "zzz" = (false, s) := by
  intro s
  have h := C6_remove_deletes_everywhere s "a1" 0
    { name := "t", lifetime := ServiceLifetime.singleton,
      factory := constFactory Value.null, inst := none,
      aliases := some ["a1", "a2"] }
    rfl rfl
  exact ⟨h.1, h.2.1, h.2.2.1 "a2" (by simp), h.2.2.2.2.2 "zzz" rfl⟩

/-- Evaluates a successful registration of a fresh name with two fresh,
pairwise-distinct aliases: all three keys are committed, pointing at the
one new registration record. -/
theorem run_register_two_aliases (s : ContainerState) (name a1 a2 : String)
    (lt : ServiceLifetime) (f : Factory)
    (hname : hasKey s.services name = false)
    (ha1 : hasKey s.services a1 = false)
    (ha2 : hasKey s.services a2 = false)
    (h1n : a1 ≠ name) (h2n : a2 ≠ name) (h21 : a2 ≠ a1) :
    s.register name lt f (some [a1, a2]) =
      (Except.ok (),
        { s with
          services := setKey (setKey (setKey s.services name s.regs.length)
            a1 s.regs.length) a2 s.regs.length
          regs := s.regs ++
            [{ name := name, lifetime := lt, factory := f, inst := none,
               aliases := some [a1, a2] }] }) := by
  have e1 : hasKey (setKey s.services name s.regs.length) a1 = false := by
    rw [hasKey_setKey_ne _ _ _ _ h1n]; exact ha1
  have e2 : hasKey (setKey (setKey s.services name s.regs.length) a1
      s.regs.length) a2 = false := by
    rw [hasKey_setKey_ne _ _ _ _ h21, hasKey_setKey_ne _ _ _ _ h2n]; exact ha2
  simp [ContainerState.register, hname, registerAliasList, e1, e2]

/-- Claim C7: registering a fresh `name` with fresh distinct aliases
`[a1, a2]` succeeds for every lifetime and makes `has` true on all three
keys; for a singleton registration, resolving through the alias and
through the primary name — in either order — yields the identical cached
instance, because both keys address the same shared record. -/
theorem C7_alias_consistency (s : ContainerState) (name a1 a2 : String)
    (f : Factory) (v : Value)
    (hname : hasKey s.services name = false)
    (ha1 : hasKey s.services a1 = false)
    (ha2 : hasKey s.services a2 = false)
    (h1n : a1 ≠ name) (h2n : a2 ≠ name) (h21 : a2 ≠ a1)
    (hf : f s.invokeCount [] = Except.ok v) :
    (∀ lt, (s.register name lt f (some [a1, a2])).1 = Except.ok () ∧
      (s.register name lt f (some [a1, a2])).2.has name = true ∧
      (s.register name lt f (some [a1, a2])).2.has a1 = true ∧
      (s.register name lt f (some [a1, a2])).2.has a2 = true) ∧
    ((let s1 := (s.register name ServiceLifetime.singleton f
        (some [a1, a2])).2
      (s1.get a1 []).1 = Except.ok v ∧
        (s1.get a1 []).2.get name [] = (Except.ok v, (s1.get a1 []).2)) ∧
     (let s1 := (s.register name ServiceLifetime.singleton f
        (some [a1, a2])).2
      (s1.get name []).1 = Except.ok v ∧
        (s1.get name []).2.get a1 [] = (Except.ok v, (s1.get name []).2))) := by
  have hn1 : name ≠ a1 := fun h => h1n h.symm
  have hn2 : name ≠ a2 := fun h => h2n h.symm
  have h12 : a1 ≠ a2 := fun h => h21 h.symm
  have hlook1 : ∀ lt, lookupKey ((s.register name lt f
      (some [a1, a2])).2).services a1 = some s.regs.length := by
    intro lt
    rw [run_register_two_aliases s name a1 a2 lt f hname ha1 ha2 h1n h2n h21]
    show lookupKey (setKey (setKey (setKey s.services name s.regs.length)
      a1 s.regs.length) a2 s.regs.length) a1 = some s.regs.length
    rw [lookupKey_setKey_ne _ _ _ _ h12, lookupKey_setKey_self]
  have hlookn : ∀ lt, lookupKey ((s.register name lt f
      (some [a1, a2])).2).services name = some s.regs.length := by
    intro lt
    rw [run_register_two_aliases s name a1 a2 lt f hname ha1 ha2 h1n h2n h21]
    show lookupKey (setKey (setKey (setKey s.services name s.regs.length)
      a1 s.regs.length) a2 s.regs.length) name = some s.regs.length
    rw [lookupKey_setKey_ne _ _ _ _ hn2, lookupKey_setKey_ne _ _ _ _ hn1,
      lookupKey_setKey_self]
  have hlook2 : ∀ lt, lookupKey ((s.register name lt f
      (some [a1, a2])).2).services a2 = some s.regs.length := by
    intro lt
    rw [run_register_two_aliases s name a1 a2 lt f hname ha1 ha2 h1n h2n h21]
    show lookupKey (setKey (setKey (setKey s.services name s.regs.length)
      a1 s.regs.length) a2 s.regs.length) a2 = some s.regs.length
    rw [lookupKey_setKey_self]
  constructor
  · intro lt
    refine ⟨?_, ?_, ?_, ?_⟩
    · rw [run_register_two_aliases s name a1 a2 lt f hname ha1 ha2 h1n h2n h21]
    · exact has_of_lookup _ name _ (hlookn lt)
    · exact has_of_lookup _ a1 _ (hlook1 lt)
    · exact has_of_lookup _ a2 _ (hlook2 lt)
  · have hregs : ∀ lt, ((s.register name lt f
        (some [a1, a2])).2).regs[s.regs.length]? =
        some { name := name, lifetime := lt, factory := f, inst := none,
               aliases := some [a1, a2] } := by
      intro lt
      rw [run_register_two_aliases s name a1 a2 lt f hname ha1 ha2 h1n h2n h21]
      exact getQ_append_length s.regs _
    have hinv : ((s.register name ServiceLifetime.singleton f
        (some [a1, a2])).2).invokeCount = s.invokeCount := by
      rw [run_register_two_aliases s name a1 a2 ServiceLifetime.singleton f
        hname ha1 ha2 h1n h2n h21]
    constructor
    · show (((s.register name ServiceLifetime.singleton f
        (some [a1, a2])).2).get a1 []).1 = Except.ok v ∧ _
      have hga1 := run_singleton_fresh
        ((s.register name ServiceLifetime.singleton f (some [a1, a2])).2)
        a1 [] s.regs.length _ v (hlook1 ServiceLifetime.singleton)
        (hregs ServiceLifetime.singleton) rfl rfl (by rw [hinv]; exact hf)
      rw [hga1]
      refine ⟨rfl, ?_⟩
      refine run_singleton_cached _ name [] s.regs.length
        { name := name, lifetime := ServiceLifetime.singleton, factory := f,
          inst := some v, aliases := some [a1, a2] } v
        (hlookn ServiceLifetime.singleton) ?_ rfl rfl
      show (modifyAt ((s.register name ServiceLifetime.singleton f
        (some [a1, a2])).2).regs s.regs.length _)[s.regs.length]? = _
      rw [getQ_modifyAt_self, hregs ServiceLifetime.singleton]
      rfl
    · show (((s.register name ServiceLifetime.singleton f
        (some [a1, a2])).2).get name []).1 = Except.ok v ∧ _
      have hgan := run_singleton_fresh
        ((s.register name ServiceLifetime.singleton f (some [a1, a2])).2)
        name [] s.regs.length _ v (hlookn ServiceLifetime.singleton)
        (hregs ServiceLifetime.singleton) rfl rfl (by rw [hinv]; exact hf)
      rw [hgan]
      refine ⟨rfl, ?_⟩
      refine run_singleton_cached _ a1 [] s.regs.length
        { name := name, lifetime := ServiceLifetime.singleton, factory := f,
          inst := some v, aliases := some [a1, a2] } v
        (hlook1 ServiceLifetime.singleton) ?_ rfl rfl
      show (modifyAt ((s.register name ServiceLifetime.singleton f
        (some [a1, a2])).2).regs s.regs.length _)[s.regs.length]? = _
      rw [getQ_modifyAt_self, hregs ServiceLifetime.singleton]
      rfl

/-- Claim C7, witness: `"t"` registered with aliases `["x", "y"]`. -/
theorem C7_witness :
    (ContainerState.empty.register "t" ServiceLifetime.singleton
      (constFactory (Value.obj 3)) (some ["x", "y"])).1 = Except.ok () ∧
    (ContainerState.empty.register "t" ServiceLifetime.singleton
      (constFactory (Value.obj 3)) (some ["x", "y"])).2.has "x" = true ∧
    (let s1 := (ContainerState.empty.register "t" ServiceLifetime.singleton
        (constFactory (Value.obj 3)) (some ["x", "y"])).2
     (s1.get "x" []).1 = Except.ok (Value.obj 3) ∧
       (s1.get "x" []).2.get "t" [] =
         (Except.ok (Value.obj 3), (s1.get "x" []).2)) := by
  have h := C7_alias_consistency ContainerState.empty "t" "x" "y"
    (constFactory (Value.obj 3)) (Value.obj 3) rfl rfl rfl
    (by decide) (by decide) (by decide) rfl
  exact ⟨(h.1 ServiceLifetime.singleton).1, (h.1 ServiceLifetime.singleton).2.2.1,
    h.2.1⟩

/-- Claim C3: for a registered scoped service and two distinct scopes `A`
and `B` with no cached state, resolving through `A` invokes the factory
once and caches per scope: a second `scope.get` on `A` returns the
identical instance with the container state completely untouched (no
re-invocation), while a first `scope.get` on `B` triggers its own factory
invocation, yielding `v2` produced by the second invocation — and when the
factory produces distinct values per call the two scopes receive
non-identical instances.  The invocation counter ends at exactly one run
per scope. -/
theorem C3_scoped_isolated_caching (s : ContainerState) (name : String)
    (regId : Nat) (reg : Registration) (A B : Nat) (v1 v2 : Value)
    (hs : lookupKey s.services name = some regId)
    (hr : s.regs[regId]? = some reg)
    (hlt : reg.lifetime = ServiceLifetime.scoped)
    (hcA : lookupKey s.scopedInstances A = none)
    (hcB : lookupKey s.scopedInstances B = none)
    (hBA : B ≠ A)
    (hf1 : reg.factory s.invokeCount [] = Except.ok v1)
    (hf2 : reg.factory (s.invokeCount + 1) [] = Except.ok v2) :
    (s.scopeGet A name []).1 = Except.ok v1 ∧
    ((s.scopeGet A name []).2.scopeGet A name []) =
      (Except.ok v1, (s.scopeGet A name []).2) ∧
    (((s.scopeGet A name []).2.scopeGet A name []).2.scopeGet B name []).1 =
      Except.ok v2 ∧
    (((s.scopeGet A name []).2.scopeGet A name []).2.scopeGet B
      name []).2.invokeCount = s.invokeCount + 2 ∧
    (v1 ≠ v2 →
      (s.scopeGet A name []).1 ≠
        (((s.scopeGet A name []).2.scopeGet A name []).2.scopeGet B
          name []).1) := by
  have h1 : s.scopeGet A name [] =
      (Except.ok v1,
        { s with
          scopedInstances := setKey (setKey s.scopedInstances A []) A
            [(reg.name, v1)]
          invokeCount := s.invokeCount + 1 }) := by
    simp only [ContainerState.scopeGet, withScope]
    rw [run_scoped_new { s with scopeStack := A :: s.scopeStack } name []
      regId reg A v1 hs hr hlt rfl hcA hf1]
    rfl
  have hhitA : lookupKey (setKey (setKey s.scopedInstances A []) A
      [(reg.name, v1)]) A = some [(reg.name, v1)] :=
    lookupKey_setKey_self _ A _
  have hselfname : lookupKey [(reg.name, v1)] reg.name = some v1 := by
    simp [lookupKey]
  have h2 : ((s.scopeGet A name []).2.scopeGet A name []) =
      (Except.ok v1, (s.scopeGet A name []).2) := by
    rw [h1]
    simp only [ContainerState.scopeGet, withScope]
    rw [run_scoped_hit
      { s with
        scopedInstances := setKey (setKey s.scopedInstances A []) A
          [(reg.name, v1)]
        invokeCount := s.invokeCount + 1
        scopeStack := A :: s.scopeStack } name [] regId reg A
      [(reg.name, v1)] v1 hs hr hlt rfl hhitA hselfname]
    rfl
  have hlookB : lookupKey (setKey (setKey s.scopedInstances A []) A
      [(reg.name, v1)]) B = none := by
    rw [lookupKey_setKey_ne _ _ _ _ hBA, lookupKey_setKey_ne _ _ _ _ hBA]
    exact hcB
  have h3 : (((s.scopeGet A name []).2.scopeGet A name []).2.scopeGet B
      name []) =
      (Except.ok v2,
        { s with
          scopedInstances := setKey (setKey (setKey (setKey s.scopedInstances
            A []) A [(reg.name, v1)]) B []) B [(reg.name, v2)]
          invokeCount := s.invokeCount + 1 + 1 }) := by
    rw [h2, h1]
    simp only [ContainerState.scopeGet, withScope]
    rw [run_scoped_new
      { s with
        scopedInstances := setKey (setKey s.scopedInstances A []) A
          [(reg.name, v1)]
        invokeCount := s.invokeCount + 1
        scopeStack := B :: s.scopeStack } name [] regId reg B v2 hs hr hlt
      rfl hlookB hf2]
    rfl
  refine ⟨by rw [h1], h2, by rw [h3], by rw [h3], ?_⟩
  intro hne
  rw [h3, h1]
  intro h
  exact hne (Except.ok.inj h)

/-- Claim C3, witness: a scoped service with an allocating factory resolved
in scopes `0` and `1`. -/
theorem C3_witness :
    let s0 := (ContainerState.empty.registerScoped "sc" freshFactory none).2
    let s := (s0.createScope.2.createScope.2 : ContainerState)
    (s.scopeGet 0 "sc" []).1 = Except.ok (Value.obj 0) ∧
    ((s.scopeGet 0 "sc" []).2.scopeGet 0 "sc" []) =
      (Except.ok (Value.obj 0), (s.scopeGet 0 "sc" []).2) ∧
    (((s.scopeGet 0 "sc" []).2.scopeGet 0 "sc" []).2.scopeGet 1 "sc" []).1 =
      Except.ok (Value.obj 1) ∧
    (s.scopeGet 0 "sc" []).1 ≠
      (((s.scopeGet 0 "sc" []).2.scopeGet 0 "sc" []).2.scopeGet 1
        "sc" []).1 := by
  intro s0 s
  have h := C3_scoped_isolated_caching s "sc" 0
    { name := "sc", lifetime := ServiceLifetime.scoped,
      factory := freshFactory, inst := none, aliases := none }
    0 1 (Value.obj 0) (Value.obj 1) rfl rfl rfl rfl rfl (by decide) rfl rfl
  exact ⟨h.1, h.2.1, h.2.2.1, h.2.2.2.2 (by decide)⟩

/-- Claim C8: `scope.get` pushes exactly this scope's token, making it the
current (top-of-stack) scope for the delegated resolution, and pops exactly
that token on every exit path: for any inner resolution that preserves the
stack, the state after `scope.get` carries the same scope stack as before
the call, the element popped is the token pushed, and the registry `get` it
delegates to indeed preserves the stack — so the concrete `scope.get` also
restores it. -/
theorem C8_scope_stack_discipline (s : ContainerState) (scope : Nat)
    (name : String) (args : List Value) :
    ContainerState.getCurrentScope
      { s with scopeStack := scope :: s.scopeStack } = some scope ∧
    (∀ inner : ContainerState → Except Thrown Value × ContainerState,
      (∀ t, ((inner t).2).scopeStack = t.scopeStack) →
      ((withScope scope inner s).2.scopeStack = s.scopeStack ∧
        ((inner { s with scopeStack := scope :: s.scopeStack
          }).2).scopeStack.head? = some scope)) ∧
    s.scopeGet scope name args = withScope scope (fun t => t.get name args) s ∧
    (∀ t : ContainerState, ((t.get name args).2).scopeStack = t.scopeStack) ∧
    (s.scopeGet scope name args).2.scopeStack = s.scopeStack := by
  refine ⟨rfl, ?_, rfl, fun t => get_scopeStack t name args, ?_⟩
  · intro inner hpres
    constructor
    · show ((inner { s with scopeStack := scope :: s.scopeStack
        }).2).scopeStack.tail = s.scopeStack
      rw [hpres]
      rfl
    · rw [hpres]
      rfl
  · show ((ContainerState.get { s with scopeStack := scope :: s.scopeStack }
      name args).2).scopeStack.tail = s.scopeStack
    rw [get_scopeStack]
    rfl

/-- Claim C8, witness: concrete scope token `4` on a container whose stack
already holds another scope, with a concrete stack-preserving inner
resolution. -/
theorem C8_witness :
    let s := ({ ContainerState.empty with scopeStack := [9] } :
      ContainerState)
    ContainerState.getCurrentScope
      { s with scopeStack := 4 :: s.scopeStack } = some 4 ∧
    (withScope 4 (fun t => (Except.ok Value.null, t)) s).2.scopeStack =
      s.scopeStack ∧
    (s.scopeGet 4 "x" []).2.scopeStack = s.scopeStack := by
  intro s
  have h := C8_scope_stack_discipline s 4 "x" []
  exact ⟨h.1,
    (h.2.1 (fun t => (Except.ok Value.null, t)) (fun t => rfl)).1,
    h.2.2.2.2⟩

/-- Evaluates `remove` on a known key: the explicit successor state. -/
theorem run_remove (s : ContainerState) (q : String) (regId : Nat)
    (reg : Registration)
    (hs : lookupKey s.services q = some regId)
    (hr : s.regs[regId]? = some reg) :
    s.remove q =
      (true,
        { s with
          services := (reg.aliases.getD []).foldl (fun m a => delKey m a)
            (delKey s.services reg.name)
          regs :=
            if reg.lifetime = ServiceLifetime.singleton then
              modifyAt s.regs regId (fun r => { r with inst := none })
            else s.regs
          scopedInstances :=
            s.scopedInstances.map (fun p => (p.1, delKey p.2 reg.name)) }) := by
  simp [ContainerState.remove, hs, hr]

/-- Evaluates a successful registration without aliases. -/
theorem run_register_no_alias (s : ContainerState) (name : String)
    (lt : ServiceLifetime) (f : Factory)
    (hname : hasKey s.services name = false) :
    s.register name lt f none =
      (Except.ok (),
        { s with
          services := setKey s.services name s.regs.length
          regs := s.regs ++
            [{ name := name, lifetime := lt, factory := f, inst := none,
               aliases := none }] }) := by
  simp [ContainerState.register, hname, registerAliasList]

/-- Claim C10: `replace` called with an alias of an existing registration
removes the entire original registration — primary name and all aliases —
and installs a fresh registration whose primary name is the passed alias,
carrying exactly the newly supplied alias set (here: none); afterwards
`has` is false on the original primary name and on every other original
alias. -/
theorem C10_replace_via_alias (s : ContainerState) (alias0 : String)
    (regId : Nat) (reg : Registration) (lt2 : ServiceLifetime) (f2 : Factory)
    (hs : lookupKey s.services alias0 = some regId)
    (hr : s.regs[regId]? = some reg)
    (hne : reg.name ≠ alias0)
    (halias : alias0 ∈ reg.aliases.getD []) :
    (s.replace alias0 lt2 f2 none).1 = Except.ok () ∧
    (s.replace alias0 lt2 f2 none).2.has alias0 = true ∧
    (s.replace alias0 lt2 f2 none).2.has reg.name = false ∧
    (∀ a, a ∈ reg.aliases.getD [] → a ≠ alias0 →
      (s.replace alias0 lt2 f2 none).2.has a = false) ∧
    (∃ newId, lookupKey ((s.replace alias0 lt2 f2 none).2).services alias0 =
      some newId ∧
      ((s.replace alias0 lt2 f2 none).2).regs[newId]? =
        some { name := alias0, lifetime := lt2, factory := f2, inst := none,
               aliases := none }) := by
  have hrem := run_remove s alias0 regId reg hs hr
  have hfree : hasKey ((s.remove alias0).2).services alias0 = false := by
    rw [hrem]
    exact hasKey_foldl_delKey_of_mem _ _ alias0 halias
  have hreg := run_register_no_alias ((s.remove alias0).2) alias0 lt2 f2 hfree
  have hrepl : s.replace alias0 lt2 f2 none =
      ((s.remove alias0).2).register alias0 lt2 f2 none := rfl
  rw [hrepl, hreg]
  refine ⟨rfl, ?_, ?_, ?_, ?_⟩
  · exact has_of_lookup _ alias0 _ (lookupKey_setKey_self _ alias0 _)
  · show hasKey (setKey ((s.remove alias0).2).services alias0
      ((s.remove alias0).2).regs.length) reg.name = false
    rw [hasKey_setKey_ne _ _ _ _ hne, hrem]
    exact hasKey_foldl_delKey_of_not _ _ _
      (hasKey_delKey_self s.services reg.name)
  · intro a ha hane
    show hasKey (setKey ((s.remove alias0).2).services alias0
      ((s.remove alias0).2).regs.length) a = false
    rw [hasKey_setKey_ne _ _ _ _ hane, hrem]
    exact hasKey_foldl_delKey_of_mem _ _ a ha
  · refine ⟨((s.remove alias0).2).regs.length,
      lookupKey_setKey_self _ alias0 _, ?_⟩
    exact getQ_append_length _ _

/-- Claim C10, witness: replacing via alias `"x"` of `"t"` (aliases
`["x", "y"]`). -/
theorem C10_witness :
    let s := (ContainerState.empty.register "t" ServiceLifetime.singleton
      (constFactory Value.null) (some ["x", "y"])).2
    (s.replace "x" ServiceLifetime.transient (constFactory (Value.num 2))
      none).1 = Except.ok () ∧
    (s.replace "x" ServiceLifetime.transient (constFactory (Value.num 2))
      none).2.has "x" = true ∧
    (s.replace "x" ServiceLifetime.transient (constFactory (Value.num 2))
      none).2.has "t" = false ∧
    (s.replace "x" ServiceLifetime.transient (constFactory (Value.num 2))
      none).2.has "y" = false := by
  intro s
  have h := C10_replace_via_alias s "x" 0
    { name := "t", lifetime := ServiceLifetime.singleton,
      factory := constFactory Value.null, inst := none,
      aliases := some ["x", "y"] }
    ServiceLifetime.transient (constFactory (Value.num 2)) rfl rfl
    (by decide) (by simp)
  exact ⟨h.1, h.2.1, h.2.2.1, h.2.2.2.1 "y" (by simp) (by decide)⟩

end Service
